import Mathlib

/-!
Shallow embedding of the task-tracking bot's core: the problem/report data model
(models.py), the CRUD layer (crud.py), the vote handlers (handlers/admin.py), the
report-submission handler (handlers/user.py), the reminder derivation (crud.py /
reminders.py) and the act sweep (reminders.py / handlers/admin.py).

Machinery that the embedded code needs from Python is modelled over `List Char`
(`str.strip`, `str.split`, `int()`, `str()`, `datetime.strptime`) because those
operations decide concrete test cases here.  Stateful handlers become pure
functions from a `DB` snapshot to a new snapshot plus their observable side
effects; SQLAlchemy sessions always commit in the modelled paths, and primary-key
lookups (`session.get`) become `List.find?` on the corresponding table.
-/

namespace Zakaz

/-! ### Python string primitives over `List Char` -/

/-- Model of Python `str.strip()`: drop leading and trailing whitespace. -/
def pyStrip (cs : List Char) : List Char :=
  ((cs.dropWhile Char.isWhitespace).reverse.dropWhile Char.isWhitespace).reverse

/-- Model of Python `str.split(sep)` for a one-character separator; in particular
`"".split(",") == [""]` and separators at the ends produce empty fields. -/
def splitOnChar (sep : Char) : List Char → List (List Char)
  | [] => [[]]
  | c :: cs =>
    match splitOnChar sep cs with
    | [] => if c == sep then [[], []] else [[c]]
    | r :: rs => if c == sep then [] :: r :: rs else (c :: r) :: rs

def digitsToNat (cs : List Char) : Nat :=
  cs.foldl (fun acc c => acc * 10 + (c.toNat - 48)) 0

/-- Strict decimal parse: nonempty and all ASCII digits. -/
def parseNatDigits (cs : List Char) : Option Nat :=
  if !cs.isEmpty && cs.all Char.isDigit then some (digitsToNat cs) else none

/-- Model of Python `int(token)` on an already-stripped token: an optional sign
followed by decimal digits; anything else raises (here: `none`). -/
def pyInt : List Char → Option Int
  | '-' :: rest => (parseNatDigits rest).map fun n => -(n : Int)
  | '+' :: rest => (parseNatDigits rest).map fun n => (n : Int)
  | cs => (parseNatDigits cs).map fun n => (n : Int)

def natCharsAux : Nat → Nat → List Char
  | 0, _ => []
  | fuel + 1, n =>
    if n < 10 then [Char.ofNat (48 + n)]
    else natCharsAux fuel (n / 10) ++ [Char.ofNat (48 + n % 10)]

/-- Decimal rendering of a natural number. -/
def natChars (n : Nat) : List Char := natCharsAux (n + 1) n

/-- Model of Python `str(i)` for an integer. -/
def intChars (i : Int) : List Char :=
  if i < 0 then '-' :: natChars i.natAbs else natChars i.natAbs

/-- `isPrefixList p s`: `p` is a prefix of `s` (model of `str.startswith` and of a
SQL `LIKE 'p%'` pattern with no other wildcards). -/
def isPrefixList : List Char → List Char → Bool
  | [], _ => true
  | _ :: _, [] => false
  | a :: ps, b :: ss => a == b && isPrefixList ps ss

def charListLt : List Char → List Char → Bool
  | [], [] => false
  | [], _ :: _ => true
  | _ :: _, [] => false
  | a :: xs, b :: ys => decide (a.toNat < b.toNat) || (a == b && charListLt xs ys)

/-! ### Calendar dates (model of `datetime.date`) -/

structure PDate where
  year : Nat
  month : Nat
  day : Nat
deriving DecidableEq

def isLeap (y : Nat) : Bool :=
  y % 4 == 0 && (y % 100 != 0 || y % 400 == 0)

def daysInMonth (y m : Nat) : Nat :=
  if m == 2 then (if isLeap y then 29 else 28)
  else if m == 4 || m == 6 || m == 9 || m == 11 then 30
  else 31

/-- Model of `datetime.strptime(s, "%Y-%m-%d").date()`: CPython's `_strptime`
matches `%Y` as exactly four digits and `%m`/`%d` as one or two digits against the
literal dashes, and `date()` then validates the calendar day (year at least 1). -/
def strptimeYMD (cs : List Char) : Option PDate :=
  match splitOnChar '-' cs with
  | [ys, ms, ds] =>
    if ys.length == 4 && (ms.length == 1 || ms.length == 2) &&
        (ds.length == 1 || ds.length == 2) then
      match parseNatDigits ys, parseNatDigits ms, parseNatDigits ds with
      | some y, some m, some d =>
        if 1 ≤ y ∧ 1 ≤ m ∧ m ≤ 12 ∧ 1 ≤ d ∧ d ≤ daysInMonth y m then
          some ⟨y, m, d⟩
        else none
      | _, _, _ => none
    else none
  | _ => none

/-- Civil-calendar day ordinal (days since 0000-03-01); differences of ordinals
agree with Python `date` subtraction.  Well-defined for `1 ≤ year`, which
`strptimeYMD` guarantees. -/
def toOrdinal (dt : PDate) : Nat :=
  let y := if dt.month ≤ 2 then dt.year - 1 else dt.year
  let era := y / 400
  let yoe := y % 400
  let mp := (dt.month + 9) % 12
  let doy := (153 * mp + 2) / 5 + dt.day - 1
  era * 146097 + (yoe * 365 + yoe / 4 - yoe / 100 + doy)

/-! ### Entity store (models.py) -/

inductive Role
  | USER
  | ADMIN
deriving DecidableEq

inductive ProblemStatus
  | IN_PROGRESS
  | REPORT_SENT
  | ACCEPTED
  | REJECTED
deriving DecidableEq

inductive ReportStatus
  | PENDING
  | ACCEPTED
  | REJECTED
deriving DecidableEq

inductive ReportDecision
  | APPROVED
  | REJECTED
deriving DecidableEq

/-- Admin tier.  The repository's `split_admins` is not present under src/; the
spec directs modelling the regular/main partition as an externally supplied
classification function `tier : adminID → Tier`. -/
inductive Tier
  | REGULAR
  | MAIN
deriving DecidableEq

structure UserRec where
  id : Int
  role : Role
deriving DecidableEq

structure ProblemList where
  id : Int
  code : String
  title : String
  is_closed : Bool
  closed_at : Option Nat
deriving DecidableEq

structure Problem where
  id : Int
  list_id : Int
  number : Int
  title : String
  assignees_raw : Option String
  due_date : Option String
  status : ProblemStatus
  note : Option String
deriving DecidableEq

structure Report where
  id : Int
  user_id : Int
  problem_id : Int
  user_chat_id : Int
  user_msg_id : Int
  status : ReportStatus
  admin_reason : Option String
  admin_id : Option Int
deriving DecidableEq

structure ReportReview where
  report_id : Int
  admin_id : Int
  decision : ReportDecision
deriving DecidableEq

structure ActEntry where
  problem_id : Int
  assignee : Int
deriving DecidableEq

structure Staff where
  assignee : Int
  post : Option String
  fio : Option String
deriving DecidableEq

/-- One snapshot of the persistent store. -/
structure DB where
  users : List UserRec
  lists : List ProblemList
  problems : List Problem
  reports : List Report
  reviews : List ReportReview
  acts : List ActEntry
  staff : List Staff
deriving DecidableEq

/-- models.Problem.assignees property: split the raw column on commas, strip each
part and keep those that parse as ints.  (`assignees_raw = ""` is falsy in the
source and yields `[]`; here `splitOnChar` gives `[[]]` whose single empty part is
skipped, so the result agrees.) -/
def Problem.assignees (p : Problem) : List Int :=
  match p.assignees_raw with
  | none => []
  | some s =>
    (splitOnChar ',' s.data).filterMap fun part =>
      let q := pyStrip part
      if q.isEmpty then none else pyInt q

/-! ### CRUD operations (crud.py) -/

/-- crud.set_problem_status: unconditional status overwrite by primary key; the
note is only written when one is passed.  A missing problem changes nothing. -/
def set_problem_status (db : DB) (problem_id : Int) (st : ProblemStatus)
    (note : Option String) : DB :=
  { db with
    problems := db.problems.map fun p =>
      if p.id == problem_id then
        { p with status := st,
                 note := match note with | some n => some n | none => p.note }
      else p }

/-- handlers/user.receive_anything, storage effects: register a new PENDING report
for the chosen problem and move the problem to REPORT_SENT.  The handler performs
no check of the problem's current status. -/
def receive_anything (db : DB)
    (user_id problem_id user_chat_id user_msg_id new_report_id : Int) : DB :=
  let db1 : DB :=
    { db with
      reports := db.reports ++
        [⟨new_report_id, user_id, problem_id, user_chat_id, user_msg_id,
          .PENDING, none, none⟩] }
  set_problem_status db1 problem_id .REPORT_SENT none

/-- crud.close_list_if_completed: close the list when it is nonempty, every one of
its problems is ACCEPTED and it is not closed yet. -/
def close_list_if_completed (db : DB) (list_id : Int) (now : Nat) : DB :=
  let total := (db.problems.filter fun p => p.list_id == list_id).length
  let accepted :=
    (db.problems.filter fun p => p.list_id == list_id && p.status == .ACCEPTED).length
  { db with
    lists := db.lists.map fun pl =>
      if pl.id == list_id && decide (0 < total) && accepted == total && !pl.is_closed then
        { pl with is_closed := true, closed_at := some now }
      else pl }

/-! ### Reminder derivation (crud.get_problems_for_reminder, reminders.send_due_reminders) -/

structure ReminderRec where
  problem_id : Int
  number : Int
  title : String
  due_date : PDate
  days_left : Int
  assignees : List Int
  plist_title : String
  plist_code : String
deriving DecidableEq

/-- The SQL part of crud.get_problems_for_reminder: problems joined to their list,
list open, assignees and due date present, status IN_PROGRESS or REPORT_SENT. -/
def reminderRows (db : DB) : List (Problem × ProblemList) :=
  (db.problems.flatMap fun p =>
      (db.lists.filter fun l => l.id == p.list_id).map fun l => (p, l)).filter
    fun pl =>
      !pl.2.is_closed && pl.1.assignees_raw.isSome && pl.1.due_date.isSome &&
        (pl.1.status == .IN_PROGRESS || pl.1.status == .REPORT_SENT)

/-- The Python loop body of crud.get_problems_for_reminder: parse the due date
(malformed dates are skipped), keep 0 ≤ days_left ≤ 3, skip problems whose parsed
assignee list is empty. -/
def reminderRecOf (today : PDate) (pl : Problem × ProblemList) : Option ReminderRec :=
  match pl.1.due_date with
  | none => none
  | some ds =>
    match strptimeYMD (pyStrip ds.data) with
    | none => none
    | some d =>
      let days_left : Int := (toOrdinal d : Int) - (toOrdinal today : Int)
      if 0 ≤ days_left ∧ days_left ≤ 3 then
        if pl.1.assignees.isEmpty then none
        else some ⟨pl.1.id, pl.1.number, pl.1.title, d, days_left, pl.1.assignees,
          pl.2.title, pl.2.code⟩
      else none

def get_problems_for_reminder (db : DB) (today : PDate) : List ReminderRec :=
  (reminderRows db).filterMap (reminderRecOf today)

/-- reminders.send_due_reminders fan-out over a record list: one (problem,
assignee) notification per assignee of every record, after the source's redundant
re-check of the day range. -/
def fanOutPairs (recs : List ReminderRec) : List (Int × Int) :=
  recs.flatMap fun r =>
    if 0 ≤ r.days_left ∧ r.days_left ≤ 3 then
      r.assignees.map fun a => (r.problem_id, a)
    else []

/-- The (problem, assignee) pairs reminders.send_due_reminders notifies on a given
day. -/
def dueReminderPairs (db : DB) (today : PDate) : List (Int × Int) :=
  fanOutPairs (get_problems_for_reminder db today)

/-! ### Consensus helpers

handlers/admin.py imports `get_admin_ids`, `split_admins`, `upsert_review`,
`has_any_rejection` and `all_regular_approved` from crud, but crud.py does not
define them; they are modelled here from the spec's contract for the Approval
Consensus Engine. -/

/-- Modelled from the spec: `crud.get_admin_ids` is missing from src/.  The spec's
admin set is the users whose role is ADMIN. -/
def get_admin_ids (db : DB) : List Int :=
  (db.users.filter fun u => u.role == .ADMIN).map (·.id)

/-- Modelled from the spec: `crud.split_admins` is missing from src/.  The spec
partitions the admin ids by the injected tier classification. -/
def split_admins (tier : Int → Tier) (ids : List Int) : List Int × List Int :=
  (ids.filter fun i => tier i == .REGULAR, ids.filter fun i => tier i == .MAIN)

/-- Modelled from the spec: `crud.upsert_review` is missing from src/.  At most one
review per (report, admin); a later vote by the same admin overwrites the earlier
one instead of adding a row. -/
def upsert_review (reviews : List ReportReview) (report_id admin_id : Int)
    (d : ReportDecision) : List ReportReview :=
  if reviews.any fun r => r.report_id == report_id && r.admin_id == admin_id then
    reviews.map fun r =>
      if r.report_id == report_id && r.admin_id == admin_id then
        { r with decision := d }
      else r
  else reviews ++ [⟨report_id, admin_id, d⟩]

/-- Modelled from the spec: `crud.has_any_rejection` is missing from src/.  True
iff some review of the report has decision REJECTED. -/
def has_any_rejection (reviews : List ReportReview) (report_id : Int) : Bool :=
  reviews.any fun r => r.report_id == report_id && r.decision == .REJECTED

/-- The admins holding an APPROVED review on the report. -/
def approved_admin_ids (reviews : List ReportReview) (report_id : Int) : List Int :=
  (reviews.filter fun r => r.report_id == report_id && r.decision == .APPROVED).map
    (·.admin_id)

/-- Modelled from the spec: `crud.all_regular_approved` is missing from src/.  The
spec compares the set of APPROVED voters on the report against the full
regular-admin id set — equality, not superset. -/
def all_regular_approved (reviews : List ReportReview) (report_id : Int)
    (regular_ids : List Int) : Bool :=
  (regular_ids.all fun a => decide (a ∈ approved_admin_ids reviews report_id)) &&
    ((approved_admin_ids reviews report_id).all fun a => decide (a ∈ regular_ids))

/-! ### The vote handlers (handlers/admin.py) -/

structure VoteOutcome where
  db : DB
  escalated : Bool
  escalation_targets : List Int
deriving DecidableEq

/-- handlers/admin.cb_accept: record the APPROVED vote; refuse to finalize when any
rejection exists (checked after the upsert); a main-tier voter finalizes the report
as ACCEPTED and the problem's status (note cleared); a regular voter triggers the
stage-2 forward to every main admin whenever all regular admins hold an APPROVED
vote.  No PENDING check is performed and `close_list_if_completed` is not called.
Primary-key updates (`session.get` then attribute writes) are modelled as a map
over the table keyed on the id. -/
def cb_accept (tier : Int → Tier) (db : DB) (report_id admin_id : Int) : VoteOutcome :=
  match db.reports.find? fun r => r.id == report_id with
  | none => ⟨db, false, []⟩
  | some report =>
    let all_admin_ids := get_admin_ids db
    let regular_ids := (split_admins tier all_admin_ids).1
    let main_ids := (split_admins tier all_admin_ids).2
    let db1 : DB := { db with reviews := upsert_review db.reviews report_id admin_id .APPROVED }
    if has_any_rejection db1.reviews report_id then ⟨db1, false, []⟩
    else if admin_id ∈ main_ids then
      ⟨{ db1 with
          reports := db1.reports.map fun r =>
            if r.id == report_id then
              { r with status := .ACCEPTED, admin_id := some admin_id }
            else r,
          problems := db1.problems.map fun p =>
            if p.id == report.problem_id then
              { p with status := .ACCEPTED, note := none }
            else p },
        false, []⟩
    else if all_regular_approved db1.reviews report_id regular_ids then
      ⟨db1, true, main_ids⟩
    else ⟨db1, false, []⟩

/-- handlers/admin.cb_reject_reason: with a nonempty (stripped) reason, record the
REJECTED vote and immediately finalize: report → REJECTED with reason and deciding
admin, problem → REJECTED with the reason as note.  No PENDING check is
performed. -/
def cb_reject_reason (db : DB) (report_id admin_id : Int) (reason_raw : String) : DB :=
  let reason := pyStrip reason_raw.data
  if reason.isEmpty then db
  else
    match db.reports.find? fun r => r.id == report_id with
    | none => db
    | some report =>
      { db with
        reviews := upsert_review db.reviews report_id admin_id .REJECTED,
        reports := db.reports.map fun r =>
          if r.id == report_id then
            { r with status := .REJECTED, admin_id := some admin_id,
                     admin_reason := some (String.mk reason) }
          else r,
        problems := db.problems.map fun p =>
          if p.id == report.problem_id then
            { p with status := .REJECTED, note := some (String.mk reason) }
          else p }

inductive VoteEv
  | approve (report_id admin_id : Int)
  | reject (report_id admin_id : Int) (reason : String)

def applyVote (tier : Int → Tier) (db : DB) : VoteEv → DB × Bool
  | .approve rid aid => let o := cb_accept tier db rid aid; (o.db, o.escalated)
  | .reject rid aid reason => (cb_reject_reason db rid aid reason, false)

/-- Run a vote trace, counting how many times the escalation side effect (the
stage-2 forward to the main admins) fires. -/
def runVotes (tier : Int → Tier) (db : DB) : List VoteEv → DB × Nat
  | [] => (db, 0)
  | ev :: rest =>
    let s1 := applyVote tier db ev
    let s2 := runVotes tier s1.1 rest
    (s2.1, (if s1.2 then 1 else 0) + s2.2)

/-! ### Act sweep (reminders.cb_admin_create_akt_by_staff) -/

/-- The source's eligibility test
`or_(assignees_raw == str(tg_id), assignees_raw.like(f"{tg_id},%"))`: the
executor's id must be the whole stored assignee string or its first
comma-separated entry.  (`assignees_raw.isnot(None)` is subsumed: a NULL column
matches nothing.) -/
def firstAssigneeMatch (p : Problem) (tg_id : Int) : Bool :=
  match p.assignees_raw with
  | none => false
  | some s => s.data == intChars tg_id || isPrefixList (intChars tg_id ++ [',']) s.data

/-- The correlated EXISTS subquery: an ActEntry for this (problem, executor). -/
def actHasEntry (db : DB) (problem_id tg_id : Int) : Bool :=
  db.acts.any fun a => a.problem_id == problem_id && a.assignee == tg_id

def pairLe (x y : Problem × ProblemList) : Bool :=
  charListLt x.2.code.data y.2.code.data ||
    (x.2.code == y.2.code && decide (x.1.number ≤ y.1.number))

def insertSorted {α : Type} (le : α → α → Bool) (x : α) : List α → List α
  | [] => [x]
  | y :: ys => if le x y then x :: y :: ys else y :: insertSorted le x ys

def sortByLe {α : Type} (le : α → α → Bool) : List α → List α
  | [] => []
  | x :: xs => insertSorted le x (sortByLe le xs)

/-- The per-staff query of the act sweep: ACCEPTED problems joined with their
list, first-assignee match for the executor, no existing act entry, ordered by
(list code, problem number). -/
def actSelect (db : DB) (tg_id : Int) : List (Problem × ProblemList) :=
  sortByLe pairLe
    ((db.problems.flatMap fun p =>
        (db.lists.filter fun l => l.id == p.list_id).map fun l => (p, l)).filter
      fun pl =>
        pl.1.status == .ACCEPTED && firstAssigneeMatch pl.1 tg_id &&
          !actHasEntry db pl.1.id tg_id)

/-- One generated certificate: the rendered docx context plus the covered
problems. -/
structure CertRec where
  assignee : Int
  list_code : String
  list_title : String
  covered : List Int
  data_text : String
deriving DecidableEq

/-- One staff member's pass of the act sweep: empty selection means no side
effect at all; otherwise render one certificate titled by the first selected
list and record one ActEntry per covered problem. -/
def sweepStep (db : DB) (st : Staff) : DB × Option CertRec :=
  match actSelect db st.assignee with
  | [] => (db, none)
  | fp :: rest =>
    let rows := fp :: rest
    let list_title := if fp.2.title == "" then fp.2.code else fp.2.title
    let cert : CertRec :=
      ⟨st.assignee, fp.2.code, list_title, rows.map fun pl => pl.1.id,
        String.intercalate ", " (rows.map fun pl => "№" ++ toString pl.1.number)⟩
    ({ db with acts := db.acts ++ rows.map fun pl => ⟨pl.1.id, st.assignee⟩ },
      some cert)

def sweepAll (db : DB) : List Staff → DB × List CertRec
  | [] => (db, [])
  | st :: rest =>
    let s1 := sweepStep db st
    let s2 := sweepAll s1.1 rest
    (s2.1, match s1.2 with | some cert => cert :: s2.2 | none => s2.2)

/-- The whole act sweep.  The source iterates the staff table ordered by fio;
iterating in table order changes only the order certificates are emitted, because
each pass touches only act entries of its own (unique) staff.assignee. -/
def runActSweep (db : DB) : DB × List CertRec :=
  sweepAll db db.staff

/-! ### Module loading (handlers/admin.py's import of crud) -/

/-- The names bound at module level in crud.py: its imports followed by its
function definitions. -/
def crudModuleNames : List String :=
  ["annotations", "Iterable", "Optional", "Dict", "Any", "select", "func", "case",
   "AsyncSession", "User", "Role", "Problem", "Report", "ReportStatus",
   "ReportMedia", "MediaType", "ProblemList", "ProblemStatus", "List", "Tuple",
   "datetime", "date",
   "get_or_create_user", "ensure_bootstrap_admins", "is_admin", "set_admin",
   "get_or_create_problem_list", "list_problem_lists", "assignees_to_str",
   "assignees_from_str", "upsert_problems", "get_problem_by_list_and_number",
   "set_problem_status", "close_list_if_completed", "get_problem",
   "create_report", "set_report_status", "add_media", "user_stats",
   "problems_stats", "get_problems_for_reminder"]

/-- The names handlers/admin.py imports from crud (its lines 20-22), in order. -/
def adminImportsFromCrud : List String :=
  ["upsert_problems", "set_report_status", "problems_stats", "set_admin",
   "set_problem_status", "close_list_if_completed", "upsert_staff",
   "all_regular_approved", "get_admin_ids", "split_admins", "upsert_review",
   "has_any_rejection"]

/-- The six consensus/staff helpers the admin handler needs. -/
def consensusHelperNames : List String :=
  ["upsert_staff", "all_regular_approved", "get_admin_ids", "split_admins",
   "upsert_review", "has_any_rejection"]

/-- Model of a Python `from M import a, b, ...` statement: each name is looked up
among the module's attributes in order; `some n` is the ImportError raised on the
first absent name `n`, `none` a successful import. -/
def firstUnresolvedImport (moduleNames : List String) : List String → Option String
  | [] => none
  | n :: rest =>
    if n ∈ moduleNames then firstUnresolvedImport moduleNames rest
    else some n

/-! ### Concrete store snapshots used as test fixtures -/

/-- Admin-tier classification used by the concrete traces: admin 2 is MAIN,
everyone else REGULAR. -/
def tierOf : Int → Tier := fun i => if i == 2 then .MAIN else .REGULAR

/-- Fixture: admins 1 (regular) and 2 (main), one open list with one REPORT_SENT
problem and its PENDING report 100. -/
def dbEsc : DB :=
  { users := [⟨1, .ADMIN⟩, ⟨2, .ADMIN⟩],
    lists := [⟨1, "L", "T", false, none⟩],
    problems := [⟨10, 1, 1, "p", none, none, .REPORT_SENT, none⟩],
    reports := [⟨100, 7, 10, 0, 0, .PENDING, none, none⟩],
    reviews := [], acts := [], staff := [] }

/-- Fixture: report 100 already finalized as ACCEPTED (deciding admin 2), its
problem ACCEPTED; admin 3 has not voted yet. -/
def dbFinal : DB :=
  { users := [⟨2, .ADMIN⟩, ⟨3, .ADMIN⟩],
    lists := [⟨1, "L", "T", false, none⟩],
    problems := [⟨10, 1, 1, "p", none, none, .ACCEPTED, none⟩],
    reports := [⟨100, 7, 10, 0, 0, .ACCEPTED, none, some 2⟩],
    reviews := [⟨100, 2, .APPROVED⟩], acts := [], staff := [] }

/-- Fixture: a single main-tier admin 2 and a pending report 100. -/
def dbRej : DB :=
  { users := [⟨2, .ADMIN⟩],
    lists := [⟨1, "L", "T", false, none⟩],
    problems := [⟨10, 1, 1, "p", none, none, .REPORT_SENT, none⟩],
    reports := [⟨100, 7, 10, 0, 0, .PENDING, none, none⟩],
    reviews := [], acts := [], staff := [] }

/-- Fixture: one open single-problem list whose only problem has a pending
report; the voter 2 is a main admin. -/
def dbClose : DB :=
  { users := [⟨2, .ADMIN⟩],
    lists := [⟨1, "L", "T", false, none⟩],
    problems := [⟨10, 1, 1, "p", none, none, .REPORT_SENT, none⟩],
    reports := [⟨100, 7, 10, 0, 0, .PENDING, none, none⟩],
    reviews := [], acts := [], staff := [] }

/-- Fixture: a problem already ACCEPTED. -/
def dbTerm : DB :=
  { users := [],
    lists := [⟨1, "L", "T", false, none⟩],
    problems := [⟨10, 1, 1, "p", none, none, .ACCEPTED, none⟩],
    reports := [], reviews := [], acts := [], staff := [] }

/-- Fixture for the reminder derivation: one open list, problem 10 due in two
days with assignee 7, problem 11 with a malformed due date. -/
def dbRem : DB :=
  { users := [],
    lists := [⟨1, "L", "T", false, none⟩],
    problems :=
      [⟨10, 1, 1, "a", some "7", some "2025-10-14", .IN_PROGRESS, none⟩,
       ⟨11, 1, 2, "b", some "7", some "not-a-date", .IN_PROGRESS, none⟩],
    reports := [], reviews := [], acts := [], staff := [] }

def todayRem : PDate := ⟨2025, 10, 12⟩

/-- The ACCEPTED problem whose stored assignee string is "1,2": executor 2 is a
member of the assignee set but not its first entry. -/
def pAct : Problem := ⟨10, 1, 1, "p", some "1,2", none, .ACCEPTED, none⟩

/-- Fixture for the act sweep: staff member 2 and the problem `pAct`. -/
def dbAct : DB :=
  { users := [],
    lists := [⟨1, "L", "T", false, none⟩],
    problems := [pAct],
    reports := [], reviews := [], acts := [], staff := [⟨2, none, none⟩] }

/-- Fixture for the act sweep with executor 2 stored first ("2,1"). -/
def dbActW : DB :=
  { users := [],
    lists := [⟨1, "L", "T", false, none⟩],
    problems := [⟨10, 1, 1, "p", some "2,1", none, .ACCEPTED, none⟩],
    reports := [], reviews := [], acts := [], staff := [⟨2, none, none⟩] }

/-! ### Helper lemmas -/

/-- Updating exactly the rows matched by the key predicate commutes with the
primary-key lookup, provided the update preserves the key. -/
theorem find?_map_keyed {α : Type} (p : α → Bool) (f : α → α)
    (hf : ∀ x, p x = true → p (f x) = true) (l : List α) :
    (l.map fun x => if p x then f x else x).find? p = (l.find? p).map f := by
  induction l with
  | nil => rfl
  | cons x xs ih =>
    by_cases hx : p x = true
    · simp [hx, hf x hx]
    · simp [hx, Bool.not_eq_true] at *
      simp [List.find?_cons_of_neg, hx, ih]

/-- Upserting an APPROVED vote cannot create a rejection. -/
theorem has_any_rejection_upsert_approved (reviews : List ReportReview)
    (rid aid : Int) (h : has_any_rejection reviews rid = false) :
    has_any_rejection (upsert_review reviews rid aid .APPROVED) rid = false := by
  unfold has_any_rejection at h ⊢
  unfold upsert_review
  by_cases hex : (reviews.any fun r => r.report_id == rid && r.admin_id == aid) = true
  · rw [if_pos hex]
    rw [Bool.eq_false_iff, Ne, List.any_eq_true] at h ⊢
    intro ⟨r, hr, hdec⟩
    rw [List.mem_map] at hr
    obtain ⟨r0, hr0, hfr0⟩ := hr
    by_cases hm : (r0.report_id == rid && r0.admin_id == aid) = true
    · rw [if_pos hm] at hfr0
      subst hfr0
      simp at hdec
    · rw [if_neg hm] at hfr0
      subst hfr0
      exact h ⟨r0, hr0, hdec⟩
  · rw [if_neg hex]
    rw [Bool.eq_false_iff, Ne, List.any_eq_true] at h ⊢
    intro ⟨r, hr, hdec⟩
    rw [List.mem_append] at hr
    rcases hr with hr | hr
    · exact h ⟨r, hr, hdec⟩
    · simp at hr
      subst hr
      simp at hdec

/-- Membership in the main side of the tier partition. -/
theorem mem_split_admins_main (tier : Int → Tier) (ids : List Int) (a : Int) :
    a ∈ (split_admins tier ids).2 ↔ a ∈ ids ∧ tier a = .MAIN := by
  simp [split_admins]

theorem mem_insertSorted {α : Type} (le : α → α → Bool) (x a : α) (l : List α) :
    a ∈ insertSorted le x l ↔ a = x ∨ a ∈ l := by
  induction l with
  | nil => simp [insertSorted]
  | cons y ys ih =>
    unfold insertSorted
    by_cases h : le x y = true
    · rw [if_pos h]
      simp
    · rw [if_neg h]
      simp [ih]
      tauto

theorem mem_sortByLe {α : Type} (le : α → α → Bool) (a : α) (l : List α) :
    a ∈ sortByLe le l ↔ a ∈ l := by
  induction l with
  | nil => simp [sortByLe]
  | cons x xs ih =>
    unfold sortByLe
    rw [mem_insertSorted]
    simp [ih]

/-- Membership in the act-sweep selection, unfolded to the join and the three
filter conditions. -/
theorem mem_actSelect (db : DB) (tg_id : Int) (pl : Problem × ProblemList) :
    pl ∈ actSelect db tg_id ↔
      pl.1 ∈ db.problems ∧ pl.2 ∈ db.lists ∧ pl.2.id = pl.1.list_id ∧
      pl.1.status = .ACCEPTED ∧ firstAssigneeMatch pl.1 tg_id = true ∧
      actHasEntry db pl.1.id tg_id = false := by
  unfold actSelect
  rw [mem_sortByLe, List.mem_filter, List.mem_flatMap]
  constructor
  · rintro ⟨⟨p, hp, hmem⟩, hcond⟩
    rw [List.mem_map] at hmem
    obtain ⟨l, hl, hplmk⟩ := hmem
    rw [List.mem_filter] at hl
    subst hplmk
    simp only [Bool.and_eq_true, beq_iff_eq, Bool.not_eq_true'] at hl hcond
    exact ⟨hp, hl.1, hl.2, hcond.1.1, hcond.1.2, hcond.2⟩
  · rintro ⟨h1, h2, h3, h4, h5, h6⟩
    refine ⟨⟨pl.1, h1, ?_⟩, ?_⟩
    · rw [List.mem_map]
      refine ⟨pl.2, ?_, rfl⟩
      rw [List.mem_filter]
      exact ⟨h2, by simp [h3]⟩
    · simp only [Bool.and_eq_true, beq_iff_eq, Bool.not_eq_true']
      exact ⟨⟨h4, h5⟩, h6⟩

theorem sweepStep_acts (db : DB) (st : Staff) :
    (sweepStep db st).1.acts =
      db.acts ++ (actSelect db st.assignee).map fun pl => ⟨pl.1.id, st.assignee⟩ := by
  unfold sweepStep
  cases h : actSelect db st.assignee with
  | nil => simp
  | cons fp rest => rfl

theorem sweepStep_problems (db : DB) (st : Staff) :
    (sweepStep db st).1.problems = db.problems := by
  unfold sweepStep
  cases h : actSelect db st.assignee with
  | nil => rfl
  | cons fp rest => rfl

theorem sweepStep_lists (db : DB) (st : Staff) :
    (sweepStep db st).1.lists = db.lists := by
  unfold sweepStep
  cases h : actSelect db st.assignee with
  | nil => rfl
  | cons fp rest => rfl

theorem sweepStep_staff (db : DB) (st : Staff) :
    (sweepStep db st).1.staff = db.staff := by
  unfold sweepStep
  cases h : actSelect db st.assignee with
  | nil => rfl
  | cons fp rest => rfl

theorem sweepAll_staff (stl : List Staff) (db : DB) :
    (sweepAll db stl).1.staff = db.staff := by
  induction stl generalizing db with
  | nil => rfl
  | cons s rest ih =>
    show (sweepAll (sweepStep db s).1 rest).1.staff = db.staff
    rw [ih, sweepStep_staff]

/-- The negative EXISTS check only gets harder as act entries accumulate. -/
theorem actHasEntry_mono (db db' : DB) (pid E : Int)
    (ha : ∀ a ∈ db.acts, a ∈ db'.acts)
    (h : actHasEntry db' pid E = false) : actHasEntry db pid E = false := by
  unfold actHasEntry at h ⊢
  rw [Bool.eq_false_iff, Ne, List.any_eq_true] at h ⊢
  intro ⟨a, hmem, hp⟩
  exact h ⟨a, ha a hmem, hp⟩

/-- With problems and lists unchanged and act entries only added, the act-sweep
selection can only lose elements. -/
theorem actSelect_shrinks (db db' : DB) (E : Int)
    (hp : db'.problems = db.problems) (hl : db'.lists = db.lists)
    (ha : ∀ a ∈ db.acts, a ∈ db'.acts)
    (pl : Problem × ProblemList) (h : pl ∈ actSelect db' E) :
    pl ∈ actSelect db E := by
  rw [mem_actSelect] at h ⊢
  obtain ⟨h1, h2, h3, h4, h5, h6⟩ := h
  exact ⟨hp ▸ h1, hl ▸ h2, h3, h4, h5, actHasEntry_mono db db' pl.1.id E ha h6⟩

/-- After a staff member's pass, that member's selection is empty: every selected
problem now has its act entry. -/
theorem sweepStep_clears (db : DB) (st : Staff) :
    actSelect (sweepStep db st).1 st.assignee = [] := by
  rw [List.eq_nil_iff_forall_not_mem]
  intro pl hmem
  have h0 : pl ∈ actSelect db st.assignee :=
    actSelect_shrinks db (sweepStep db st).1 st.assignee
      (sweepStep_problems db st) (sweepStep_lists db st)
      (fun a ha => by rw [sweepStep_acts]; exact List.mem_append_left _ ha) pl hmem
  have hentry : (⟨pl.1.id, st.assignee⟩ : ActEntry) ∈ (sweepStep db st).1.acts := by
    rw [sweepStep_acts]
    exact List.mem_append_right _ (List.mem_map_of_mem _ h0)
  rw [mem_actSelect] at hmem
  obtain ⟨_, _, _, _, _, hfalse⟩ := hmem
  unfold actHasEntry at hfalse
  rw [Bool.eq_false_iff, Ne, List.any_eq_true] at hfalse
  exact hfalse ⟨⟨pl.1.id, st.assignee⟩, hentry, by simp⟩

theorem sweepStep_preserves_empty (db : DB) (st : Staff) (E : Int)
    (h : actSelect db E = []) : actSelect (sweepStep db st).1 E = [] := by
  rw [List.eq_nil_iff_forall_not_mem]
  intro pl hmem
  have h0 : pl ∈ actSelect db E :=
    actSelect_shrinks db (sweepStep db st).1 E
      (sweepStep_problems db st) (sweepStep_lists db st)
      (fun a ha => by rw [sweepStep_acts]; exact List.mem_append_left _ ha) pl hmem
  rw [h] at h0
  cases h0

theorem sweepAll_preserves_empty (stl : List Staff) (db : DB) (E : Int)
    (h : actSelect db E = []) : actSelect (sweepAll db stl).1 E = [] := by
  induction stl generalizing db with
  | nil => exact h
  | cons s rest ih =>
    show actSelect (sweepAll (sweepStep db s).1 rest).1 E = []
    exact ih (sweepStep db s).1 (sweepStep_preserves_empty db s E h)

/-- After a full sweep, every swept staff member's selection is empty. -/
theorem sweepAll_clears (stl : List Staff) (db : DB) (st : Staff) (hmem : st ∈ stl) :
    actSelect (sweepAll db stl).1 st.assignee = [] := by
  induction stl generalizing db with
  | nil => cases hmem
  | cons s rest ih =>
    show actSelect (sweepAll (sweepStep db s).1 rest).1 st.assignee = []
    rcases List.mem_cons.mp hmem with heq | hrest
    · subst heq
      exact sweepAll_preserves_empty rest (sweepStep db st).1 st.assignee
        (sweepStep_clears db st)
    · exact ih (sweepStep db s).1 hrest

/-- A sweep over staff whose selections are all empty changes nothing and emits
no certificate. -/
theorem sweepAll_of_empty (stl : List Staff) (db : DB)
    (h : ∀ st ∈ stl, actSelect db st.assignee = []) : sweepAll db stl = (db, []) := by
  induction stl with
  | nil => rfl
  | cons s rest ih =>
    have hs : actSelect db s.assignee = [] := h s (List.mem_cons_self s rest)
    have hstep : sweepStep db s = (db, none) := by
      unfold sweepStep
      rw [hs]
    show (let s1 := sweepStep db s
          let s2 := sweepAll s1.1 rest
          (s2.1, match s1.2 with | some cert => cert :: s2.2 | none => s2.2)) = (db, [])
    rw [hstep]
    simp only
    rw [ih fun st hm => h st (List.mem_cons_of_mem s hm)]

theorem mem_reminderRows (db : DB) (pl : Problem × ProblemList) :
    pl ∈ reminderRows db ↔
      pl.1 ∈ db.problems ∧ pl.2 ∈ db.lists ∧ pl.2.id = pl.1.list_id ∧
      pl.2.is_closed = false ∧ pl.1.assignees_raw.isSome = true ∧
      pl.1.due_date.isSome = true ∧
      (pl.1.status = .IN_PROGRESS ∨ pl.1.status = .REPORT_SENT) := by
  unfold reminderRows
  rw [List.mem_filter, List.mem_flatMap]
  constructor
  · rintro ⟨⟨p, hp, hmem⟩, hcond⟩
    rw [List.mem_map] at hmem
    obtain ⟨l, hl, hplmk⟩ := hmem
    rw [List.mem_filter] at hl
    subst hplmk
    simp only [Bool.and_eq_true, Bool.not_eq_true', Bool.or_eq_true, beq_iff_eq] at hl hcond
    exact ⟨hp, hl.1, hl.2, hcond.1.1.1, hcond.1.1.2, hcond.1.2, hcond.2⟩
  · rintro ⟨h1, h2, h3, h4, h5, h6, h7⟩
    refine ⟨⟨pl.1, h1, ?_⟩, ?_⟩
    · rw [List.mem_map]
      refine ⟨pl.2, ?_, rfl⟩
      rw [List.mem_filter]
      exact ⟨h2, by simp [h3]⟩
    · simp only [Bool.and_eq_true, Bool.not_eq_true', Bool.or_eq_true, beq_iff_eq]
      exact ⟨⟨⟨h4, h5⟩, h6⟩, h7⟩

/-- What a produced reminder record looks like. -/
theorem reminderRecOf_some (today : PDate) (pl : Problem × ProblemList)
    (r : ReminderRec) (h : reminderRecOf today pl = some r) :
    r.problem_id = pl.1.id ∧ r.assignees = pl.1.assignees ∧
    0 ≤ r.days_left ∧ r.days_left ≤ 3 ∧
    ∃ ds d, pl.1.due_date = some ds ∧ strptimeYMD (pyStrip ds.data) = some d ∧
      r.days_left = (toOrdinal d : Int) - (toOrdinal today : Int) := by
  unfold reminderRecOf at h
  cases hdd : pl.1.due_date with
  | none => simp only [hdd] at h; cases h
  | some ds =>
    simp only [hdd] at h
    cases hps : strptimeYMD (pyStrip ds.data) with
    | none => simp only [hps] at h; cases h
    | some d =>
      simp only [hps] at h
      by_cases hrange : 0 ≤ (toOrdinal d : Int) - (toOrdinal today : Int) ∧
          (toOrdinal d : Int) - (toOrdinal today : Int) ≤ 3
      · rw [if_pos hrange] at h
        by_cases hne : pl.1.assignees.isEmpty = true
        · rw [if_pos hne] at h; cases h
        · rw [if_neg hne] at h
          injection h with h
          subst h
          exact ⟨rfl, rfl, hrange.1, hrange.2, ds, d, rfl, hps, rfl⟩
      · rw [if_neg hrange] at h; cases h

/-- A row whose due date parses into the three-day window yields its reminder
record. -/
theorem reminderRecOf_eq_some (today : PDate) (pl : Problem × ProblemList)
    (ds : String) (d : PDate)
    (hdd : pl.1.due_date = some ds) (hps : strptimeYMD (pyStrip ds.data) = some d)
    (h0 : 0 ≤ (toOrdinal d : Int) - (toOrdinal today : Int))
    (h3 : (toOrdinal d : Int) - (toOrdinal today : Int) ≤ 3)
    (hne : pl.1.assignees ≠ []) :
    reminderRecOf today pl =
      some ⟨pl.1.id, pl.1.number, pl.1.title, d,
        (toOrdinal d : Int) - (toOrdinal today : Int), pl.1.assignees,
        pl.2.title, pl.2.code⟩ := by
  unfold reminderRecOf
  simp only [hdd, hps]
  rw [if_pos ⟨h0, h3⟩, if_neg (by simp [hne])]

/-- An assignee can only come from a present raw column. -/
theorem assignees_raw_isSome_of_mem (p : Problem) (a : Int) (h : a ∈ p.assignees) :
    p.assignees_raw.isSome = true := by
  cases hraw : p.assignees_raw with
  | none =>
    unfold Problem.assignees at h
    rw [hraw] at h
    cases h
  | some s => rfl

/-- `filter` by a key that is unique across the list keeps at most one element. -/
theorem filter_key_nil_or_single {α : Type} (key : α → Int) (l : List α)
    (h : (l.map key).Nodup) (c : Int) :
    l.filter (fun x => key x == c) = [] ∨
      ∃ x, l.filter (fun x => key x == c) = [x] := by
  induction l with
  | nil => left; rfl
  | cons y ys ih =>
    rw [List.map_cons, List.nodup_cons] at h
    rw [List.filter_cons]
    by_cases hy : (key y == c) = true
    · rw [if_pos hy]
      right
      refine ⟨y, ?_⟩
      have hnil : ys.filter (fun x => key x == c) = [] := by
        rw [List.filter_eq_nil_iff]
        intro x hx hpx
        rw [beq_iff_eq] at hpx hy
        exact h.1 (hy ▸ hpx ▸ List.mem_map_of_mem key hx)
      rw [hnil]
    · rw [if_neg hy]
      exact ih h.2

/-- With unique list ids, the problems/lists join keeps problem ids distinct: the
joined ids form a sublist of the problem ids. -/
theorem join_ids_sublist (probs : List Problem) (ls : List ProblemList)
    (hls : (ls.map (·.id)).Nodup) :
    List.Sublist
      ((probs.flatMap fun p =>
        (ls.filter fun l => l.id == p.list_id).map fun l => (p, l)).map
        fun pl => pl.1.id)
      (probs.map (·.id)) := by
  induction probs with
  | nil => simp
  | cons p rest ih =>
    rw [List.flatMap_cons, List.map_append, List.map_cons]
    rcases filter_key_nil_or_single (·.id) ls hls p.list_id with hnil | ⟨x, hx⟩
    · rw [hnil]
      simp only [List.map_nil, List.nil_append]
      exact ih.cons _
    · rw [hx]
      simp only [List.map_cons, List.map_nil, List.cons_append, List.nil_append]
      exact ih.cons₂ _

/-- The derived records keep distinct problem ids: their ids form a sublist of the
row ids. -/
theorem records_ids_sublist (today : PDate) (rows : List (Problem × ProblemList)) :
    List.Sublist ((rows.filterMap (reminderRecOf today)).map (·.problem_id))
      (rows.map fun pl => pl.1.id) := by
  induction rows with
  | nil => simp
  | cons pl rest ih =>
    rw [List.map_cons]
    cases h : reminderRecOf today pl with
    | none =>
      rw [List.filterMap_cons_none h]
      exact ih.cons _
    | some r =>
      rw [List.filterMap_cons_some h, List.map_cons,
        (reminderRecOf_some today pl r h).1]
      exact ih.cons₂ _

/-- Every pair the fan-out emits carries its record's problem id. -/
theorem fanOutPairs_fst (recs : List ReminderRec) (x : Int × Int)
    (h : x ∈ fanOutPairs recs) : x.1 ∈ recs.map (·.problem_id) := by
  unfold fanOutPairs at h
  rw [List.mem_flatMap] at h
  obtain ⟨r, hr, hx⟩ := h
  by_cases hc : 0 ≤ r.days_left ∧ r.days_left ≤ 3
  · rw [if_pos hc, List.mem_map] at hx
    obtain ⟨a, _, hxa⟩ := hx
    subst hxa
    exact List.mem_map_of_mem _ hr
  · rw [if_neg hc] at hx
    cases hx

/-- The fan-out over records with distinct problem ids and duplicate-free assignee
lists has no duplicate pairs. -/
theorem fanOutPairs_nodup (recs : List ReminderRec)
    (hids : (recs.map (·.problem_id)).Nodup)
    (hasg : ∀ r ∈ recs, r.assignees.Nodup) :
    (fanOutPairs recs).Nodup := by
  induction recs with
  | nil => exact List.nodup_nil
  | cons r rest ih =>
    rw [List.map_cons, List.nodup_cons] at hids
    unfold fanOutPairs
    rw [List.flatMap_cons, List.nodup_append]
    refine ⟨?_, ih hids.2 fun r' hr' => hasg r' (List.mem_cons_of_mem r hr'), ?_⟩
    · by_cases hc : 0 ≤ r.days_left ∧ r.days_left ≤ 3
      · rw [if_pos hc]
        exact (hasg r (List.mem_cons_self r rest)).map
          fun a b hab => ((Prod.mk.injEq _ _ _ _).mp hab).2
      · rw [if_neg hc]
        exact List.nodup_nil
    · intro x hx hx'
      have hx1 : x.1 = r.problem_id := by
        by_cases hc : 0 ≤ r.days_left ∧ r.days_left ≤ 3
        · rw [if_pos hc, List.mem_map] at hx
          obtain ⟨a, _, hxa⟩ := hx
          subst hxa
          rfl
        · rw [if_neg hc] at hx
          cases hx
      exact hids.1 (hx1 ▸ fanOutPairs_fst rest x hx')

/-! ### Claim theorems -/

/-- C1: the claim says the stage-2 forward fires at most once per report and that
a repeat APPROVED vote by a regular admin after unanimity must not forward the
report to the main admins again.  On the code it fires on the first unanimous
vote — and fires AGAIN on the repeat vote, because `cb_accept` recomputes
`all_regular_approved` on every regular vote with no freshly-crossed-threshold
gate: the two-vote trace [approve by 1, approve by 1] forwards twice. -/
theorem c1_escalation_refires :
    (runVotes tierOf dbEsc [.approve 100 1]).2 = 1 ∧
    (runVotes tierOf dbEsc [.approve 100 1, .approve 100 1]).2 = 2 := by decide

/-- C2: the claim says any vote on a finalized (non-PENDING) report is rejected
with no state change.  `cb_reject_reason` performs no PENDING check: on report 100
already finalized ACCEPTED, admin 3's rejection vote re-finalizes it as REJECTED,
flips the owning problem to REJECTED and changes the store. -/
theorem c2_vote_after_finalize_mutates :
    ((dbFinal.reports.find? fun r => r.id == 100).map (·.status) = some .ACCEPTED) ∧
    (((cb_reject_reason dbFinal 100 3 "bad").reports.find? fun r => r.id == 100).map
        (·.status) = some .REJECTED) ∧
    (((cb_reject_reason dbFinal 100 3 "bad").problems.find? fun p => p.id == 10).map
        (·.status) = some .REJECTED) ∧
    cb_reject_reason dbFinal 100 3 "bad" ≠ dbFinal := by decide

/-- C3: the claim says a REJECTED vote finalizes the report as REJECTED and no
subsequent vote changes that — in particular no later main-tier APPROVED vote
finalizes it as ACCEPTED.  On the code, after main admin 2 rejects report 100,
the same admin's APPROVED vote overwrites their own rejection (the upsert runs
before `has_any_rejection` is checked) and re-finalizes the report as
ACCEPTED. -/
theorem c3_reject_then_approve_flips :
    (((cb_reject_reason dbRej 100 2 "bad").reports.find? fun r => r.id == 100).map
        (·.status) = some .REJECTED) ∧
    (((cb_accept tierOf (cb_reject_reason dbRej 100 2 "bad") 100 2).db.reports.find?
        fun r => r.id == 100).map (·.status) = some .ACCEPTED) := by decide

/-- C4: for a pending report with no rejection vote on record, whose owning
problem exists and is in REPORT_SENT, a single APPROVED vote by a MAIN-tier admin
immediately finalizes — whatever regular votes exist: the report becomes ACCEPTED
with the voter as deciding admin, the problem becomes ACCEPTED with its note
cleared, and no escalation fires. -/
theorem c4_main_approve_finalizes (tier : Int → Tier) (db : DB) (rid aid : Int)
    (r : Report) (p : Problem)
    (hr : db.reports.find? (fun x => x.id == rid) = some r)
    (hrstat : r.status = .PENDING)
    (hp : db.problems.find? (fun x => x.id == r.problem_id) = some p)
    (hpstat : p.status = .REPORT_SENT)
    (hnorej : has_any_rejection db.reviews rid = false)
    (hadm : aid ∈ get_admin_ids db)
    (hmain : tier aid = .MAIN) :
    (cb_accept tier db rid aid).db.reports.find? (fun x => x.id == rid) =
      some { r with status := .ACCEPTED, admin_id := some aid } ∧
    (cb_accept tier db rid aid).db.problems.find? (fun x => x.id == r.problem_id) =
      some { p with status := .ACCEPTED, note := none } ∧
    (cb_accept tier db rid aid).escalated = false := by
  have hno2 := has_any_rejection_upsert_approved db.reviews rid aid hnorej
  have hmem : aid ∈ (split_admins tier (get_admin_ids db)).2 :=
    (mem_split_admins_main tier (get_admin_ids db) aid).mpr ⟨hadm, hmain⟩
  unfold cb_accept
  rw [hr]
  simp only [hno2, Bool.false_eq_true, if_false, if_pos hmem]
  refine ⟨?_, ?_, trivial⟩
  · rw [find?_map_keyed (fun x => x.id == rid)
      (fun x => { x with status := .ACCEPTED, admin_id := some aid })
      (fun x hx => hx) db.reports, hr]
    rfl
  · rw [find?_map_keyed (fun x => x.id == r.problem_id)
      (fun x => { x with status := .ACCEPTED, note := none })
      (fun x hx => hx) db.problems, hp]
    rfl

/-- C4 witness: on the concrete fixture (`dbClose`, main admin 2, pending report
100, problem 10 in REPORT_SENT) the theorem's hypotheses hold and the vote
finalizes report and problem as ACCEPTED with deciding admin 2. -/
theorem c4_main_approve_finalizes_witness :
    (dbClose.reports.find? fun x => x.id == 100) =
      some ⟨100, 7, 10, 0, 0, .PENDING, none, none⟩ ∧
    has_any_rejection dbClose.reviews 100 = false ∧
    (2 : Int) ∈ get_admin_ids dbClose ∧ tierOf 2 = .MAIN ∧
    ((cb_accept tierOf dbClose 100 2).db.reports.find? fun x => x.id == 100) =
      some ⟨100, 7, 10, 0, 0, .ACCEPTED, none, some 2⟩ ∧
    ((cb_accept tierOf dbClose 100 2).db.problems.find? fun x => x.id == 10) =
      some ⟨10, 1, 1, "p", none, none, .ACCEPTED, none⟩ := by
  have h := c4_main_approve_finalizes tierOf dbClose 100 2
    ⟨100, 7, 10, 0, 0, .PENDING, none, none⟩
    ⟨10, 1, 1, "p", none, none, .REPORT_SENT, none⟩
    (by decide) rfl (by decide) rfl (by decide) (by decide) (by decide)
  exact ⟨by decide, by decide, by decide, by decide, h.1, h.2.1⟩

/-- C5: the claim says that after a problem transitions into ACCEPTED, a list all
of whose problems are ACCEPTED gets `is_closed = true`.  The accept path
(`cb_accept`) never calls `close_list_if_completed` (the helper is defined in
crud.py and imported, but no caller exists in src/): after the main-tier approval
every problem of list 1 is ACCEPTED yet the list stays open — while one call to
the helper would close it. -/
theorem c5_accept_does_not_close_list :
    (cb_accept tierOf dbClose 100 2).db.problems ≠ [] ∧
    ((cb_accept tierOf dbClose 100 2).db.problems.all fun p => p.status == .ACCEPTED) = true ∧
    ((cb_accept tierOf dbClose 100 2).db.lists.all fun l => !l.is_closed) = true ∧
    ((close_list_if_completed (cb_accept tierOf dbClose 100 2).db 1 0).lists.all
      fun l => l.is_closed) = true := by decide

/-- C6: the claim says ACCEPTED is terminal for a problem.  The submission handler
`receive_anything` (and `set_problem_status` under it) has no status guard: a
report submitted for the ACCEPTED problem 10 moves it back to REPORT_SENT. -/
theorem c6_accepted_not_terminal :
    ((dbTerm.problems.find? fun p => p.id == 10).map (·.status) = some .ACCEPTED) ∧
    (((receive_anything dbTerm 7 10 0 0 101).problems.find? fun p => p.id == 10).map
        (·.status) = some .REPORT_SENT) := by decide

/-- C7: under the schema's unique problem/list ids and set-semantics (duplicate
free) assignee lists, the reminder derivation emits exactly one record per
(problem, assignee) pair such that the owning list exists and is not closed, the
status is IN_PROGRESS or REPORT_SENT, the due date is present and parses as a
YYYY-MM-DD calendar date, and days_left = due − today lies in [0, 3]; a problem
with N assignees yields its N pairs, and a problem with a malformed due date
contributes nothing (the derivation is a total function — no error). -/
theorem c7_reminder_pairs (db : DB) (today : PDate)
    (hpid : (db.problems.map (·.id)).Nodup)
    (hlid : (db.lists.map (·.id)).Nodup)
    (hassg : ∀ p ∈ db.problems, p.assignees.Nodup) :
    (∀ pid a : Int,
      (pid, a) ∈ dueReminderPairs db today ↔
        ∃ p ∈ db.problems, p.id = pid ∧
          (∃ l ∈ db.lists, l.id = p.list_id ∧ l.is_closed = false) ∧
          (p.status = .IN_PROGRESS ∨ p.status = .REPORT_SENT) ∧
          (∃ ds d, p.due_date = some ds ∧ strptimeYMD (pyStrip ds.data) = some d ∧
            0 ≤ (toOrdinal d : Int) - (toOrdinal today : Int) ∧
            (toOrdinal d : Int) - (toOrdinal today : Int) ≤ 3) ∧
          a ∈ p.assignees) ∧
    (dueReminderPairs db today).Nodup := by
  constructor
  · intro pid a
    unfold dueReminderPairs fanOutPairs get_problems_for_reminder
    rw [List.mem_flatMap]
    constructor
    · rintro ⟨r, hr, hx⟩
      rw [List.mem_filterMap] at hr
      obtain ⟨pl, hpl, hrec⟩ := hr
      obtain ⟨hid, hasgn, h0, h3, ds, d, hdd, hps, hdl⟩ :=
        reminderRecOf_some today pl r hrec
      rw [if_pos ⟨h0, h3⟩, List.mem_map] at hx
      obtain ⟨b, hb, hba⟩ := hx
      simp only [Prod.mk.injEq] at hba
      rw [mem_reminderRows] at hpl
      refine ⟨pl.1, hpl.1, ?_, ⟨pl.2, hpl.2.1, hpl.2.2.1, hpl.2.2.2.1⟩,
        hpl.2.2.2.2.2.2, ⟨ds, d, hdd, hps, hdl ▸ h0, hdl ▸ h3⟩, ?_⟩
      · rw [← hba.1, hid]
      · rw [← hba.2]
        rw [hasgn] at hb
        exact hb
    · rintro ⟨p, hp, hpid', ⟨l, hl, hlid', hlcl⟩, hstat, ⟨ds, d, hdd, hps, h0, h3⟩, ha⟩
      have hrows : (p, l) ∈ reminderRows db := by
        rw [mem_reminderRows]
        exact ⟨hp, hl, hlid', hlcl, assignees_raw_isSome_of_mem p a ha,
          by rw [hdd]; rfl, hstat⟩
      have hne : p.assignees ≠ [] := by
        intro hnil
        rw [hnil] at ha
        cases ha
      have hrec := reminderRecOf_eq_some today (p, l) ds d hdd hps h0 h3 hne
      refine ⟨_, List.mem_filterMap.mpr ⟨(p, l), hrows, hrec⟩, ?_⟩
      dsimp only
      rw [if_pos ⟨h0, h3⟩, List.mem_map]
      refine ⟨a, ha, ?_⟩
      dsimp only
      rw [hpid']
  · have h1 : ((reminderRows db).map fun pl => pl.1.id).Nodup := by
      have hsub : List.Sublist ((reminderRows db).map fun pl => pl.1.id)
          ((db.problems.flatMap fun p =>
            (db.lists.filter fun l => l.id == p.list_id).map fun l => (p, l)).map
            fun pl => pl.1.id) :=
        List.Sublist.map _ (List.filter_sublist _)
      exact hpid.sublist (hsub.trans (join_ids_sublist db.problems db.lists hlid))
    have h2 : ((get_problems_for_reminder db today).map (·.problem_id)).Nodup :=
      h1.sublist (records_ids_sublist today (reminderRows db))
    have h3 : ∀ r ∈ get_problems_for_reminder db today, r.assignees.Nodup := by
      intro r hr
      unfold get_problems_for_reminder at hr
      rw [List.mem_filterMap] at hr
      obtain ⟨pl, hpl, hrec⟩ := hr
      rw [(reminderRecOf_some today pl r hrec).2.1]
      exact hassg pl.1 ((mem_reminderRows db pl).mp hpl).1
    exact fanOutPairs_nodup _ h2 h3

/-- C7 witness: on the fixture (`dbRem`, today = 2025-10-12) the hypotheses hold,
the derived pair list is duplicate free and it contains the pair (problem 10,
assignee 7), whose due date 2025-10-14 is two days away. -/
theorem c7_reminder_pairs_witness :
    ((dbRem.problems.map (·.id)).Nodup ∧ (dbRem.lists.map (·.id)).Nodup ∧
      ∀ p ∈ dbRem.problems, p.assignees.Nodup) ∧
    (dueReminderPairs dbRem todayRem).Nodup ∧
    ((10 : Int), (7 : Int)) ∈ dueReminderPairs dbRem todayRem := by
  have h := c7_reminder_pairs dbRem todayRem (by decide) (by decide) (by decide)
  refine ⟨⟨by decide, by decide, by decide⟩, h.2, ?_⟩
  exact (h.1 10 7).mpr
    ⟨⟨10, 1, 1, "a", some "7", some "2025-10-14", .IN_PROGRESS, none⟩,
      by decide, rfl, ⟨⟨1, "L", "T", false, none⟩, by decide, rfl, rfl⟩, Or.inl rfl,
      ⟨"2025-10-14", ⟨2025, 10, 14⟩, rfl, by decide, by decide, by decide⟩, by decide⟩

/-- C8 counterexample: executor 2 (a staff member) is a member of the assignee
set of the ACCEPTED, never-certified problem `pAct` (stored string "1,2"), so the
claim requires the sweep to select it, add the ActEntry (10, 2) and emit a
certificate; the code's prefix test (`assignees_raw == "2"` or LIKE "2,%") fails
on "1,2" and the sweep does nothing at all. -/
theorem c8_first_assignee_counterexample :
    (2 : Int) ∈ pAct.assignees ∧ pAct.status = .ACCEPTED ∧
    dbAct.problems = [pAct] ∧ dbAct.acts = [] ∧ dbAct.staff = [⟨2, none, none⟩] ∧
    runActSweep dbAct = (dbAct, []) := by decide

/-- C8 (amended): the sweep pass for executor E selects exactly the problems with
status ACCEPTED whose owning list exists, whose stored assignee string has E as
its FIRST entry (equal to str(E) or starting with "str(E),"), and that have no
ActEntry for (problem, E); each selected problem yields one ActEntry for
(problem, E), and the one certificate emitted for E covers exactly the selected
problems (none is emitted when the selection is empty). -/
theorem c8_act_sweep_selection (db : DB) (E : Int) (stPost stFio : Option String) :
    (∀ p : Problem,
      (∃ l, (p, l) ∈ actSelect db E) ↔
        (p ∈ db.problems ∧ (∃ l ∈ db.lists, l.id = p.list_id) ∧
         p.status = .ACCEPTED ∧
         (∃ s, p.assignees_raw = some s ∧
           (s.data = intChars E ∨ isPrefixList (intChars E ++ [',']) s.data = true)) ∧
         ¬ ∃ a ∈ db.acts, a.problem_id = p.id ∧ a.assignee = E)) ∧
    (sweepStep db ⟨E, stPost, stFio⟩).1.acts =
      db.acts ++ ((actSelect db E).map fun pl => ⟨pl.1.id, E⟩) ∧
    (∀ c, (sweepStep db ⟨E, stPost, stFio⟩).2 = some c →
      c.assignee = E ∧ c.covered = (actSelect db E).map fun pl => pl.1.id) ∧
    (actSelect db E = [] → (sweepStep db ⟨E, stPost, stFio⟩).2 = none) := by
  refine ⟨?_, sweepStep_acts db ⟨E, stPost, stFio⟩, ?_, ?_⟩
  · intro p
    constructor
    · rintro ⟨l, hmem⟩
      rw [mem_actSelect] at hmem
      obtain ⟨h1, h2, h3, h4, h5, h6⟩ := hmem
      refine ⟨h1, ⟨l, h2, h3⟩, h4, ?_, ?_⟩
      · unfold firstAssigneeMatch at h5
        cases hraw : p.assignees_raw with
        | none => rw [hraw] at h5; cases h5
        | some s =>
          rw [hraw] at h5
          rw [Bool.or_eq_true, beq_iff_eq] at h5
          exact ⟨s, rfl, h5⟩
      · unfold actHasEntry at h6
        rw [Bool.eq_false_iff, Ne, List.any_eq_true] at h6
        rintro ⟨a, hmem, hpid, hassg⟩
        exact h6 ⟨a, hmem, by simp [hpid, hassg]⟩
    · rintro ⟨h1, ⟨l, hl, hlid⟩, h4, ⟨s, hraw, hpre⟩, h6⟩
      refine ⟨l, ?_⟩
      rw [mem_actSelect]
      refine ⟨h1, hl, hlid, h4, ?_, ?_⟩
      · unfold firstAssigneeMatch
        rw [hraw, Bool.or_eq_true, beq_iff_eq]
        exact hpre
      · unfold actHasEntry
        rw [Bool.eq_false_iff, Ne, List.any_eq_true]
        rintro ⟨a, hmem, hp⟩
        rw [Bool.and_eq_true, beq_iff_eq, beq_iff_eq] at hp
        exact h6 ⟨a, hmem, hp.1, hp.2⟩
  · intro c hc
    unfold sweepStep at hc
    cases hsel : actSelect db E with
    | nil => rw [hsel] at hc; cases hc
    | cons fp rest =>
      rw [hsel] at hc
      simp only [Option.some.injEq] at hc
      subst hc
      exact ⟨rfl, rfl⟩
  · intro hsel
    unfold sweepStep
    rw [hsel]

/-- C8 witness: with the assignee string "2,1" (executor 2 first), the pass for
staff member 2 records exactly the act entry (10, 2). -/
theorem c8_act_sweep_selection_witness :
    (sweepStep dbActW ⟨2, none, none⟩).1.acts = dbActW.acts ++ [⟨10, 2⟩] := by
  have h := (c8_act_sweep_selection dbActW 2 none none).2.1
  rw [h]
  decide

/-- C9: the act sweep is idempotent: a second run immediately after a first one
(no intervening acceptances) leaves the store unchanged and produces zero
certificates, because the first run recorded an ActEntry for every covered
(problem, executor) pair and the selection excludes pairs that already have
one. -/
theorem c9_act_sweep_idempotent (db : DB) :
    runActSweep (runActSweep db).1 = ((runActSweep db).1, []) := by
  unfold runActSweep
  rw [sweepAll_staff db.staff db]
  exact sweepAll_of_empty db.staff (sweepAll db db.staff).1
    fun st hm => sweepAll_clears db.staff db st hm

/-- C10: handlers/admin.py's `from crud import ...` (lines 20-22) requests six
names — upsert_staff, all_regular_approved, get_admin_ids, split_admins,
upsert_review, has_any_rejection — that crud.py does not bind, so resolving
the names raises ImportError at the first missing one (`upsert_staff`) on every
load of the module, making the voting/escalation/staff-import handlers
unreachable as shipped. -/
theorem c10_admin_import_fails :
    firstUnresolvedImport crudModuleNames adminImportsFromCrud = some "upsert_staff" ∧
    (consensusHelperNames.all fun n =>
      decide (n ∈ adminImportsFromCrud) && !(decide (n ∈ crudModuleNames))) = true := by decide

end Zakaz
